import Mathlib

/-!
Verification development for the wopr-plugin-msteams activity pipeline
(src/index.ts, src/msteams-extension.ts).

The TypeScript source is shallowly embedded: pure functions become Lean
functions, the module-level mutable maps and counters become an explicit
state record threaded through the pipeline step, and JavaScript platform
primitives that the code calls (Number, Date.parse, Date.now, Math.random)
are modelled as explicit oracle parameters so that theorems quantify over
their behaviour.

JavaScript value conventions used throughout:
  - a possibly-undefined value of type T is Option T (none = undefined/null);
  - the JS `a || b` on strings is jsOr (empty string is falsy);
  - the JS `a || b` on arrays keeps a whenever it is present, because an
    array (even an empty one) is truthy in JavaScript;
  - `===` on two possibly-undefined ids is Option equality (undefined ===
    undefined is true);
  - JS Map and Set become association lists / duplicate-free lists with
    insertion-order overwrite semantics.
-/

namespace MSTeams

/-- JS string `a || b`: the empty string is falsy, so it falls through to b. -/
def jsOr (a : Option String) (b : String) : String :=
  match a with
  | none => b
  | some s => if s = "" then b else s

/-- JS `a || b` where both sides are possibly-undefined strings (used by
`config.appId || process.env.MSTEAMS_APP_ID`): an empty string is falsy. -/
def jsOrOpt (a b : Option String) : Option String :=
  match a with
  | none => b
  | some s => if s = "" then b else some s

/-- JS `a || b || []` where a and b are possibly-undefined arrays (used by
`config.groupAllowFrom || config.allowFrom || []`). An array is always
truthy in JavaScript, even when empty, so a present a wins unconditionally. -/
def jsOrArr (a b : Option (List String)) : List String :=
  match a with
  | some l => l
  | none => b.getD []

/-- Model of String.prototype.toLowerCase (adequate for the ASCII hostnames
and schemes this plugin compares), written by structural recursion on the
character list so that proofs can evaluate it. -/
def jsToLower (s : String) : String :=
  String.mk (s.toList.map Char.toLower)

/-- Model of String.prototype.endsWith. -/
def jsEndsWith (s t : String) : Bool :=
  let a := s.toList
  let b := t.toList
  decide (b.length ≤ a.length) && (a.drop (a.length - b.length) == b)

/-- Model of String.prototype.startsWith. -/
def jsStartsWith (s t : String) : Bool :=
  s.toList.take t.toList.length == t.toList

/-- Model of String.prototype.slice(n) for n ≥ 0 (ASCII: code-unit and
character counts agree). -/
def jsDrop (s : String) (n : Nat) : String :=
  String.mk (s.toList.drop n)

/-- Model of String.prototype.trim. -/
def jsTrim (s : String) : String :=
  String.mk (((s.toList.dropWhile Char.isWhitespace).reverse.dropWhile
    Char.isWhitespace).reverse)

/-- JS Map.set on an association list: overwrite in place, else append. -/
def mapSet {α : Type} (m : List (String × α)) (k : String) (v : α) : List (String × α) :=
  match m with
  | [] => [(k, v)]
  | (k', v') :: rest => if k' = k then (k, v) :: rest else (k', v') :: mapSet rest k v

/-- JS Map.get on an association list. -/
def mapGet {α : Type} (m : List (String × α)) (k : String) : Option α :=
  match m with
  | [] => none
  | (k', v) :: rest => if k' = k then some v else mapGet rest k

/-- JS Map.has on an association list. -/
def mapHasKey {α : Type} (m : List (String × α)) (k : String) : Bool :=
  m.any (fun p => p.1 == k)

/-- JS Set.add on a duplicate-free list. -/
def setAdd (s : List String) (x : String) : List String :=
  if s.contains x then s else s ++ [x]

/-! ## Retry executor (src/index.ts: parseRetryAfter, withRetry)

The JavaScript platform primitives used by parseRetryAfter are modelled as
an oracle record: jsNumber s is Number(s) (none when NaN), dateParse s is
Date.parse(s) (none when NaN), and now is Date.now(). Numeric values are
modelled as integers (millisecond precision). -/

structure JsEnv where
  jsNumber : String → Option Int
  dateParse : String → Option Int
  now : Int

/-- Embedding of parseRetryAfter from src/index.ts:

  if (!value) return 0;
  const seconds = Number(value);
  if (!Number.isNaN(seconds) && seconds >= 0) return seconds * 1000;
  const date = Date.parse(value);
  if (!Number.isNaN(date)) then the ms remaining until that date, clamped to 0;
  return 0. -/
def parseRetryAfter (env : JsEnv) (value : Option String) : Int :=
  match value with
  | none => 0
  | some s =>
    if s = "" then 0
    else
      match env.jsNumber s with
      | some seconds =>
        if 0 ≤ seconds then seconds * 1000
        else
          match env.dateParse s with
          | some date => if 0 < date - env.now then date - env.now else 0
          | none => 0
      | none =>
        match env.dateParse s with
        | some date => if 0 < date - env.now then date - env.now else 0
        | none => 0

/-- Duck-typed error shape inspected by withRetry: `err?.response?.status ??
err?.statusCode ?? 0` and `err?.response?.headers?.["retry-after"]`. -/
structure JsError where
  responseStatus : Option Nat
  statusCode : Option Nat
  retryAfter : Option String
deriving Repr, DecidableEq

/-- The status code withRetry classifies on: `err?.response?.status ??
err?.statusCode ?? 0` (nullish coalescing). -/
def errStatus (e : JsError) : Nat :=
  e.responseStatus.getD (e.statusCode.getD 0)

/-- withRetry's retryability test: `status === 429 || (status >= 500 && status < 600)`. -/
def isRetryableStatus (s : Nat) : Bool :=
  s == 429 || (decide (500 ≤ s) && decide (s < 600))

/-- Observable trace of one withRetry invocation: its final result, how many
times the wrapped operation was called, and the sequence of awaited delays. -/
structure RetryTrace (α : Type) where
  result : Except JsError α
  calls : Nat
  waits : List Int
deriving Repr

/-- Embedding of the withRetry loop body from src/index.ts. The wrapped
asynchronous operation is modelled as op : attempt index → outcome, and the
evaluated full-jitter draw `Math.floor(Math.random() * (baseDelayMs * 2 **
attempt))` at each attempt is supplied by the oracle jitter (one value per
attempt index); remaining counts the retries still available, so the loop
for attempt in 0..maxRetries starts with remaining = maxRetries.

Loop body: call the operation; on success return. On failure, if the status
is not retryable or no retries remain (`attempt === maxRetries`), rethrow the
error; otherwise wait `Math.max(jitteredDelay, parseRetryAfter(retryAfter))`
and continue with the next attempt. -/
def withRetryAux {α : Type} (env : JsEnv) (op : Nat → Except JsError α)
    (jitter : Nat → Int) : (attempt : Nat) → (remaining : Nat) → RetryTrace α
  | attempt, remaining =>
    match op attempt with
    | Except.ok v => { result := Except.ok v, calls := 1, waits := [] }
    | Except.error e =>
      if isRetryableStatus (errStatus e) then
        match remaining with
        | 0 => { result := Except.error e, calls := 1, waits := [] }
        | r + 1 =>
          let actualDelay := max (jitter attempt) (parseRetryAfter env e.retryAfter)
          let rest := withRetryAux env op jitter (attempt + 1) r
          { result := rest.result, calls := rest.calls + 1, waits := actualDelay :: rest.waits }
      else { result := Except.error e, calls := 1, waits := [] }

/-- Embedding of one full withRetry invocation with retry limit maxRetries. -/
def withRetry {α : Type} (env : JsEnv) (op : Nat → Except JsError α)
    (jitter : Nat → Int) (maxRetries : Nat) : RetryTrace α :=
  withRetryAux env op jitter 0 maxRetries

/-! ## Configuration and access policy (src/index.ts: MSTeamsConfig, isAllowed) -/

/-- Embedding of the MSTeamsConfig interface fields the pipeline reads.
Every field is optional in the TypeScript interface. -/
structure MSTeamsConfig where
  appId : Option String := none
  appPassword : Option String := none
  tenantId : Option String := none
  dmPolicy : Option String := none
  allowFrom : Option (List String) := none
  groupPolicy : Option String := none
  groupAllowFrom : Option (List String) := none
  requireMention : Option Bool := none
  replyStyle : Option String := none
  useAdaptiveCards : Option Bool := none
deriving Repr, DecidableEq

/-- Embedding of isAllowed from src/index.ts. Group kinds use
`config.groupPolicy || "allowlist"` and the allow-list
`config.groupAllowFrom || config.allowFrom || []` (array truthiness: a
present groupAllowFrom is used even when it is the empty array). Personal
kinds use `config.dmPolicy || "pairing"` and `config.allowFrom || []`. -/
def isAllowed (config : MSTeamsConfig) (userId : String) (conversationType : String) : Bool :=
  let isGroup := conversationType == "channel" || conversationType == "groupChat"
  if isGroup then
    let policy := jsOr config.groupPolicy "allowlist"
    if policy == "open" then true
    else if policy == "disabled" then false
    else
      let allowed := jsOrArr config.groupAllowFrom config.allowFrom
      if allowed.contains "*" then true
      else allowed.contains userId
  else
    let policy := jsOr config.dmPolicy "pairing"
    if policy == "open" then true
    else if policy == "disabled" then false
    else if policy == "pairing" then true
    else
      let allowed := config.allowFrom.getD []
      if allowed.contains "*" then true
      else allowed.contains userId

/-! ## Activity data model (botbuilder Activity fields read by the pipeline) -/

structure ChannelAccount where
  id : Option String := none
  name : Option String := none
deriving Repr, DecidableEq

structure ConversationAccount where
  id : Option String := none
  conversationType : Option String := none
  name : Option String := none
  tenantId : Option String := none
deriving Repr, DecidableEq

/-- An activity entity as inspected by the mention check: its type tag and
`mentioned?.id` (flattened into one optional id). -/
structure ActivityEntity where
  type : String
  mentionedId : Option String := none
deriving Repr, DecidableEq

/-- An inbound attachment as inspected by downloadAttachment. -/
structure TeamsAttachment where
  contentUrl : Option String := none
  name : Option String := none
  contentType : Option String := none
deriving Repr, DecidableEq

/-- channelData.team as read by the team tracking step. -/
structure TeamData where
  id : Option String := none
  name : Option String := none
deriving Repr, DecidableEq

/-- channelData.channel as read by the channel tracking step. -/
structure ChannelData where
  id : Option String := none
  name : Option String := none
  type : Option String := none
deriving Repr, DecidableEq

/-- The fields of a botbuilder Activity that processActivity and
downloadAttachment read. fromUser is the activity's `from` account
(renamed: `from` is a Lean keyword). -/
structure Activity where
  type : String
  id : Option String := none
  text : Option String := none
  fromUser : Option ChannelAccount := none
  recipient : Option ChannelAccount := none
  conversation : Option ConversationAccount := none
  entities : Option (List ActivityEntity) := none
  attachments : Option (List TeamsAttachment) := none
  channelId : Option String := none
  serviceUrl : Option String := none
  channelDataTeam : Option TeamData := none
  channelDataChannel : Option ChannelData := none
deriving Repr, DecidableEq

/-- Embedding of the mention check inside processActivity:
`activity.entities?.some((e) => e.type === "mention" && e.mentioned?.id ===
activity.recipient?.id)`. An absent entities list yields false (undefined
short-circuits the optional chain), never an error. -/
def isMentioned (a : Activity) : Bool :=
  match a.entities with
  | none => false
  | some es => es.any (fun e => e.type == "mention" && e.mentionedId == a.recipient.bind (·.id))

/-! ## Conversation reference store and runtime state
(src/index.ts: conversationReferences, pluginState; src/msteams-extension.ts) -/

/-- The addressing metadata kept per conversation (the fallback shape built
in storeConversationReference; TurnContext.getConversationReference returns
the same fields plus extras not read anywhere in this plugin). -/
structure ConvRef where
  channelId : Option String := none
  serviceUrl : Option String := none
  conversationId : Option String := none
  botId : Option String := none
deriving Repr, DecidableEq

structure TeamMeta where
  id : String
  name : String
deriving Repr, DecidableEq

structure ChannelMeta where
  id : String
  name : String
  type : String
deriving Repr, DecidableEq

/-- The module-level mutable state the pipeline writes: the conversation
reference map plus the MsteamsPluginState observability fields. -/
structure RuntimeState where
  refs : List (String × ConvRef) := []
  messagesProcessed : Nat := 0
  activeConversations : List String := []
  tenants : List String := []
  teams : List (String × TeamMeta) := []
  channels : List (String × List (String × ChannelMeta)) := []
deriving Repr, DecidableEq

/-- Embedding of storeConversationReference: keyed by
`activity.conversation?.id`; no key means no write; otherwise the reference
for that key is unconditionally overwritten. -/
def storeConversationReference (a : Activity) (refs : List (String × ConvRef)) :
    List (String × ConvRef) :=
  match a.conversation.bind (·.id) with
  | none => refs
  | some key =>
    mapSet refs key
      { channelId := a.channelId
        serviceUrl := a.serviceUrl
        conversationId := some key
        botId := a.recipient.bind (·.id) }

/-- Embedding of the pluginState updates in processActivity (counter,
active-conversation set, tenant set, team map). -/
def trackState (a : Activity) (conversationId : String) (s : RuntimeState) : RuntimeState :=
  let s1 := { s with
    messagesProcessed := s.messagesProcessed + 1
    activeConversations := setAdd s.activeConversations conversationId }
  let s2 :=
    match a.conversation.bind (·.tenantId) with
    | some t => if t = "" then s1 else { s1 with tenants := setAdd s1.tenants t }
    | none => s1
  match a.channelDataTeam with
  | some td =>
    match td.id with
    | some tid =>
      if tid = "" then s2
      else { s2 with teams := mapSet s2.teams tid { id := tid, name := jsOr td.name tid } }
    | none => s2
  | none => s2

/-- Embedding of the channel tracking step in processActivity (guarded by
`channelData?.id && teamData?.id`, both truthy). -/
def trackChannels (a : Activity) (s : RuntimeState) : RuntimeState :=
  match a.channelDataChannel, a.channelDataTeam with
  | some cd, some td =>
    match cd.id, td.id with
    | some cid, some tid =>
      if cid = "" || tid = "" then s
      else
        let inner := (mapGet s.channels tid).getD []
        let meta : ChannelMeta :=
          { id := cid
            name := jsOr cd.name (jsOr (a.conversation.bind (·.name)) cid)
            type := jsOr cd.type "standard" }
        { s with channels := mapSet s.channels tid (mapSet inner cid meta) }
    | _, _ => s
  | _, _ => s

/-! ## Slash command matching (src/index.ts: matchSlashCommand) -/

/-- Embedding of matchSlashCommand over the registry's command names in
registration order: trims the text and matches `/name` exactly or
`/name ` as a leading segment; first match wins. -/
def matchSlashCommand (registered : List String) (text : String) : Option (String × String) :=
  let trimmed := jsTrim text
  registered.findSome? (fun name =>
    let pat := "/" ++ name
    if trimmed == pat || jsStartsWith trimmed (pat ++ " ") then
      some (name, jsTrim (jsDrop trimmed pat.length))
    else none)

/-! ## Activity pipeline (src/index.ts: processActivity) -/

/-- The terminal state of one processActivity run. injected carries the
session key and the full prefixed message handed to ctx.inject. -/
inductive ProcessOutcome where
  | skippedNonMessage
  | skippedSelf
  | skippedNoIds
  | blockedByPolicy
  | suppressedNoMention
  | commandHandled (name : String) (args : String)
  | injected (sessionKey : String) (message : String)
deriving Repr, DecidableEq

/-- Embedding of processActivity from src/index.ts, in source order:
store the conversation reference; skip non-message activities; skip the
bot's own messages (`from?.id === recipient?.id`, Option equality); bail
out when the sender id or conversation id is falsy; apply isAllowed with
`conversationType || "personal"`; apply the mention gate for channel /
groupChat kinds unless requireMention is literally false; update the
observability counters; then either dispatch a matched slash command or
inject `[userName]: text` into session `msteams-conversationId`. -/
def processActivity (config : MSTeamsConfig) (registered : List String)
    (a : Activity) (s : RuntimeState) : ProcessOutcome × RuntimeState :=
  let s1 := { s with refs := storeConversationReference a s.refs }
  if a.type ≠ "message" then (ProcessOutcome.skippedNonMessage, s1)
  else if a.fromUser.bind (·.id) == a.recipient.bind (·.id) then
    (ProcessOutcome.skippedSelf, s1)
  else
    match a.fromUser.bind (·.id), a.conversation.bind (·.id) with
    | some userId, some conversationId =>
      if userId = "" || conversationId = "" then (ProcessOutcome.skippedNoIds, s1)
      else if ¬ isAllowed config userId
          (jsOr (a.conversation.bind (·.conversationType)) "personal") then
        (ProcessOutcome.blockedByPolicy, s1)
      else if (a.conversation.bind (·.conversationType) == some "channel" ||
            a.conversation.bind (·.conversationType) == some "groupChat")
          && config.requireMention != some false && ! isMentioned a then
        (ProcessOutcome.suppressedNoMention, s1)
      else
        match matchSlashCommand registered (jsOr a.text "") with
        | some (n, args) =>
          (ProcessOutcome.commandHandled n args, trackChannels a (trackState a conversationId s1))
        | none =>
          (ProcessOutcome.injected ("msteams-" ++ conversationId)
            ("[" ++ jsOr (a.fromUser.bind (·.name)) "Unknown" ++ "]: " ++ jsOr a.text ""),
            trackChannels a (trackState a conversationId s1))
    | _, _ => (ProcessOutcome.skippedNoIds, s1)

/-! ## Download guard (src/index.ts: isAllowedDownloadHost, downloadAttachment)

The WHATWG `new URL(...)` constructor is a platform primitive; it is
modelled here at the granularity the guard reads: scheme (lowercased, with
the trailing colon, as in URL.protocol) and hostname (authority up to the
first '/', '?', '#', with any port stripped). Parsing fails (the constructor
throws) when there is no "://" separator or the scheme or host is empty. -/

structure URLParts where
  protocol : String
  host : String
deriving Repr, DecidableEq

/-- Splits a character list at the first occurrence of "://", returning the
characters before it (the scheme) and after it. -/
def findSchemeSplit : List Char → List Char → Option (List Char × List Char)
  | [], _ => none
  | ':' :: '/' :: '/' :: rest, acc => some (acc.reverse, rest)
  | c :: rest, acc => findSchemeSplit rest (c :: acc)

/-- Model of `new URL(url)` restricted to the fields the guard reads. -/
def parseURL (url : String) : Option URLParts :=
  match findSchemeSplit url.toList [] with
  | none => none
  | some (schemeCs, restCs) =>
    let hostPort := restCs.takeWhile (fun c => c != '/' && c != '?' && c != '#')
    let hostCs := hostPort.takeWhile (fun c => c != ':')
    if schemeCs.isEmpty || hostCs.isEmpty then none
    else some { protocol := jsToLower (String.mk schemeCs) ++ ":", host := String.mk hostCs }

/-- The allow-list constant ALLOWED_DOWNLOAD_HOST_SUFFIXES from src/index.ts. -/
def allowedDownloadHostSuffixes : List String :=
  [".botframework.com", ".teams.microsoft.com", ".skype.com"]

/-- Embedding of isAllowedDownloadHost: the URL must parse, the protocol
must be exactly "https:", and the lowercased hostname must equal
`suffix.slice(1)` or end with the suffix for some allow-listed suffix. -/
def isAllowedDownloadHost (url : String) : Bool :=
  match parseURL url with
  | none => false
  | some parsed =>
    if parsed.protocol ≠ "https:" then false
    else
      let hostname := jsToLower parsed.host
      allowedDownloadHostSuffixes.any (fun suffix =>
        hostname == jsDrop suffix 1 || jsEndsWith hostname suffix)

/-- The observable effect of downloadAttachment on the network: either it
returns null before any network call, or it hands exactly one URL to the
retried axios.get fetch. -/
inductive DownloadAction where
  | noFetch
  | fetch (url : String)
deriving Repr, DecidableEq

/-- Embedding of the guard portion of downloadAttachment from src/index.ts:
missing attachment list, out-of-range index, missing contentUrl, and a
guard-rejected contentUrl all return null with no network call; only a
guard-approved contentUrl reaches the fetch. -/
def downloadAttachment (a : Activity) (attachmentIndex : Nat) : DownloadAction :=
  match a.attachments with
  | none => DownloadAction.noFetch
  | some atts =>
    if h : attachmentIndex < atts.length then
      match (atts.get ⟨attachmentIndex, h⟩).contentUrl with
      | none => DownloadAction.noFetch
      | some downloadUrl =>
        if ! isAllowedDownloadHost downloadUrl then DownloadAction.noFetch
        else DownloadAction.fetch downloadUrl
    else DownloadAction.noFetch

/-! ## Credential resolution and init (src/index.ts: resolveCredentials, init) -/

/-- The three environment-variable fallbacks read by resolveCredentials. -/
structure CredEnv where
  appId : Option String := none
  appPassword : Option String := none
  tenantId : Option String := none
deriving Repr, DecidableEq

/-- Embedding of resolveCredentials: each credential is
`config.X || process.env.MSTEAMS_X` (string truthiness), and the triple is
null when any of the three is falsy. -/
def resolveCredentials (config : MSTeamsConfig) (env : CredEnv) :
    Option (String × String × String) :=
  let appId := jsOrOpt config.appId env.appId
  let appPassword := jsOrOpt config.appPassword env.appPassword
  let tenantId := jsOrOpt config.tenantId env.tenantId
  match appId, appPassword, tenantId with
  | some a, some p, some t =>
    if a = "" || p = "" || t = "" then none else some (a, p, t)
  | _, _, _ => none

/-- How init's credential handling terminates. -/
inductive InitOutcome where
  | warnedMissingCredentials
  | threwEmptyAppId
  | threwEmptyAppPassword
  | threwEmptyTenantId
  | adapterCreated
deriving Repr, DecidableEq

/-- True exactly for the outcomes in which init throws an error. -/
def initThrows : InitOutcome → Bool
  | InitOutcome.threwEmptyAppId => true
  | InitOutcome.threwEmptyAppPassword => true
  | InitOutcome.threwEmptyTenantId => true
  | _ => false

/-- Embedding of init's credential sequence from src/index.ts: when
resolveCredentials is null, log a warning and return (no throw, no
adapter); otherwise throw a field-specific error for the first credential
that is whitespace-only after trim; otherwise initAdapter re-resolves the
same credentials and constructs the CloudAdapter. -/
def initCredentialCheck (config : MSTeamsConfig) (env : CredEnv) : InitOutcome :=
  match resolveCredentials config env with
  | none => InitOutcome.warnedMissingCredentials
  | some (a, p, t) =>
    if jsTrim a = "" then InitOutcome.threwEmptyAppId
    else if jsTrim p = "" then InitOutcome.threwEmptyAppPassword
    else if jsTrim t = "" then InitOutcome.threwEmptyTenantId
    else InitOutcome.adapterCreated

/-! ## Concrete inputs used by witnesses and counterexamples -/

def err429 : JsError := { responseStatus := some 429, statusCode := none, retryAfter := none }

def opAlways429 : Nat → Except JsError Unit := fun _ => Except.error err429

def jitterZero : Nat → Int := fun _ => 0

def envTrivial : JsEnv := { jsNumber := fun _ => none, dateParse := fun _ => none, now := 0 }

def err400 : JsError := { responseStatus := some 400, statusCode := none, retryAfter := none }

def opAlways400 : Nat → Except JsError Unit := fun _ => Except.error err400

def envTable : JsEnv :=
  { jsNumber := fun s => if s = "120" then some 120 else none
    dateParse := fun s => if s = "Thu, 01 Jan 1970 00:00:00 GMT" then some 100 else none
    now := 1000 }

def opHint429 : Nat → Except JsError Unit :=
  fun _ => Except.error { responseStatus := some 429, statusCode := none, retryAfter := some "120" }

def actAttachW : Activity :=
  { type := "message"
    attachments := some [{ contentUrl := some "https://media.botframework.com/x"
                           name := some "x.pdf"
                           contentType := some "application/pdf" }] }

def cfgEmptyGroupList : MSTeamsConfig :=
  { groupPolicy := some "allowlist", groupAllowFrom := some [], allowFrom := some ["user-1"] }

def cfgGroupFallback : MSTeamsConfig :=
  { groupPolicy := some "allowlist", allowFrom := some ["user-1"] }

def cfgBlankAppId : MSTeamsConfig :=
  { appId := some " ", appPassword := some "pw", tenantId := some "tn" }

def cfgOpenDm : MSTeamsConfig := { dmPolicy := some "open" }

def actDmW : Activity :=
  { type := "message"
    text := some "Hello WOPR"
    fromUser := some { id := some "user-1", name := some "Alice" }
    recipient := some { id := some "bot-1" }
    conversation := some { id := some "conv-1", conversationType := some "personal" } }

def cfgDisabledGroup : MSTeamsConfig := { groupPolicy := some "disabled" }

def actChannelW : Activity :=
  { type := "message"
    text := some "hello"
    fromUser := some { id := some "user-1", name := some "U" }
    recipient := some { id := some "bot-1" }
    conversation := some { id := some "conv-1", conversationType := some "channel",
                           tenantId := some "tenant-1" } }

def stateC7 : RuntimeState :=
  { refs := [("conv-1", { channelId := none, serviceUrl := none,
                          conversationId := some "conv-1", botId := some "bot-1" })] }

/-! ## Helper lemmas -/

theorem withRetryAux_calls_le {α : Type} (env : JsEnv) (op : Nat → Except JsError α)
    (jitter : Nat → Int) :
    ∀ (remaining attempt : Nat),
      (withRetryAux env op jitter attempt remaining).calls ≤ remaining + 1 := by
  intro remaining
  induction remaining with
  | zero =>
    intro attempt
    rw [withRetryAux]
    split
    · simp
    · split
      · simp
      · simp
  | succ r ih =>
    intro attempt
    rw [withRetryAux]
    split
    · simp
    · split
      · have := ih (attempt + 1)
        simp only []
        simp
        omega
      · simp

theorem withRetryAux_allfail {α : Type} (env : JsEnv) (op : Nat → Except JsError α)
    (jitter : Nat → Int)
    (hfail : ∀ i, ∃ e, op i = Except.error e ∧ isRetryableStatus (errStatus e) = true) :
    ∀ (remaining attempt : Nat),
      (withRetryAux env op jitter attempt remaining).calls = remaining + 1 ∧
      ∃ e, op (attempt + remaining) = Except.error e ∧
        (withRetryAux env op jitter attempt remaining).result = Except.error e := by
  intro remaining
  induction remaining with
  | zero =>
    intro attempt
    obtain ⟨e, he, hre⟩ := hfail attempt
    rw [withRetryAux, he]
    simp only [hre, if_true]
    refine ⟨by simp, e, by simpa using he, by simp⟩
  | succ r ih =>
    intro attempt
    obtain ⟨e, he, hre⟩ := hfail attempt
    rw [withRetryAux, he]
    simp only [hre, if_true]
    obtain ⟨hcalls, e', he', hres⟩ := ih (attempt + 1)
    have harith : attempt + 1 + r = attempt + (r + 1) := by omega
    rw [harith] at he'
    refine ⟨?_, e', he', ?_⟩
    · simp [hcalls]
    · simpa using hres

theorem withRetryAux_waits {α : Type} (env : JsEnv) (op : Nat → Except JsError α)
    (jitter : Nat → Int) :
    ∀ (remaining attempt j : Nat) (w : Int),
      (withRetryAux env op jitter attempt remaining).waits.get? j = some w →
      ∃ e, op (attempt + j) = Except.error e ∧
        w = max (jitter (attempt + j)) (parseRetryAfter env e.retryAfter) := by
  intro remaining
  induction remaining with
  | zero =>
    intro attempt j w h
    rw [withRetryAux] at h
    split at h
    · simp at h
    · split at h
      · simp at h
      · simp at h
  | succ r ih =>
    intro attempt j w h
    rw [withRetryAux] at h
    split at h
    · simp at h
    · rename_i e heq
      split at h
      · simp only [] at h
        cases j with
        | zero =>
          simp at h
          exact ⟨e, by simpa using heq, h.symm⟩
        | succ j' =>
          simp at h
          obtain ⟨e', he', hw⟩ := ih (attempt + 1) j' w (by simpa using h)
          have harith : attempt + 1 + j' = attempt + (j' + 1) := by omega
          rw [harith] at he' hw
          exact ⟨e', he', hw⟩
      · simp at h

theorem mapSet_hasKey {α : Type} (m : List (String × α)) (k : String) (v : α) :
    mapHasKey (mapSet m k v) k = true := by
  induction m with
  | nil => simp [mapSet, mapHasKey]
  | cons hd tl ih =>
    obtain ⟨k', v'⟩ := hd
    rw [mapSet]
    split
    · simp [mapHasKey]
    · simp only [mapHasKey, List.any_cons] at ih ⊢
      simp [ih]

theorem storeConversationReference_hasKey (a : Activity) (refs : List (String × ConvRef))
    (cid : String) (hcid : a.conversation.bind (·.id) = some cid) :
    mapHasKey (storeConversationReference a refs) cid = true := by
  rw [storeConversationReference, hcid]
  exact mapSet_hasKey refs cid _

theorem trackState_fields (a : Activity) (cid : String) (s : RuntimeState) :
    (trackState a cid s).refs = s.refs ∧
    (trackState a cid s).messagesProcessed = s.messagesProcessed + 1 ∧
    (trackState a cid s).channels = s.channels := by
  rw [trackState]
  repeat' split
  all_goals simp

theorem trackChannels_fields (a : Activity) (s : RuntimeState) :
    (trackChannels a s).refs = s.refs ∧
    (trackChannels a s).messagesProcessed = s.messagesProcessed ∧
    (trackChannels a s).activeConversations = s.activeConversations ∧
    (trackChannels a s).tenants = s.tenants ∧
    (trackChannels a s).teams = s.teams := by
  rw [trackChannels]
  repeat' split
  all_goals simp

/-! ## Claim theorems -/

theorem c1_inject_requires_policy_and_mention :
    (∀ a : Activity, a.entities = none → isMentioned a = false) ∧
    (∀ (config : MSTeamsConfig) (registered : List String) (a : Activity)
        (s : RuntimeState) (key msg : String) (s' : RuntimeState),
      processActivity config registered a s = (ProcessOutcome.injected key msg, s') →
      ∃ uid, a.fromUser.bind (·.id) = some uid ∧
        isAllowed config uid
          (jsOr (a.conversation.bind (·.conversationType)) "personal") = true ∧
        ((a.conversation.bind (·.conversationType) = some "channel" ∨
          a.conversation.bind (·.conversationType) = some "groupChat") →
          config.requireMention ≠ some false → isMentioned a = true)) := by
  constructor
  · intro a ha
    simp [isMentioned, ha]
  · intro config registered a s key msg s' h
    rw [processActivity] at h
    split at h
    · simp at h
    · split at h
      · simp at h
      · split at h
        · rename_i userId conversationId huid hcid
          split at h
          · simp at h
          · split at h
            · simp at h
            · rename_i hallow
              split at h
              · simp at h
              · rename_i hgate
                refine ⟨userId, huid, by simpa using hallow, ?_⟩
                intro hkind hmention
                simp only [Bool.and_eq_true, Bool.or_eq_true, beq_iff_eq,
                  Bool.not_eq_true', bne_iff_ne, ne_eq] at hgate
                by_contra hnm
                exact hgate ⟨⟨hkind, hmention⟩, by simp_all⟩
        · simp at h

theorem c1_witness :
    ∃ uid, actDmW.fromUser.bind (·.id) = some uid ∧
      isAllowed cfgOpenDm uid
        (jsOr (actDmW.conversation.bind (·.conversationType)) "personal") = true ∧
      ((actDmW.conversation.bind (·.conversationType) = some "channel" ∨
        actDmW.conversation.bind (·.conversationType) = some "groupChat") →
        cfgOpenDm.requireMention ≠ some false → isMentioned actDmW = true) :=
  c1_inject_requires_policy_and_mention.2 cfgOpenDm [] actDmW {}
    "msteams-conv-1" "[Alice]: Hello WOPR"
    (processActivity cfgOpenDm [] actDmW {}).2 (by decide)

theorem c2_download_guard_characterisation :
    (∀ url, isAllowedDownloadHost url = true ↔
      ∃ p, parseURL url = some p ∧ p.protocol = "https:" ∧
        (jsToLower p.host = "botframework.com" ∨
         jsEndsWith (jsToLower p.host) ".botframework.com" = true ∨
         jsToLower p.host = "teams.microsoft.com" ∨
         jsEndsWith (jsToLower p.host) ".teams.microsoft.com" = true ∨
         jsToLower p.host = "skype.com" ∨
         jsEndsWith (jsToLower p.host) ".skype.com" = true)) ∧
    isAllowedDownloadHost "https://media.botframework.com/x" = true ∧
    isAllowedDownloadHost "http://media.botframework.com/x" = false ∧
    isAllowedDownloadHost "https://evil.com/x" = false ∧
    isAllowedDownloadHost "https://attacker.com/fake.botframework.com" = false ∧
    (∀ (a : Activity) (i : Nat) (u : String),
      downloadAttachment a i = DownloadAction.fetch u → isAllowedDownloadHost u = true) := by
  have e1 : jsDrop ".botframework.com" 1 = "botframework.com" := by decide
  have e2 : jsDrop ".teams.microsoft.com" 1 = "teams.microsoft.com" := by decide
  have e3 : jsDrop ".skype.com" 1 = "skype.com" := by decide
  refine ⟨?_, by decide, by decide, by decide, by decide, ?_⟩
  · intro url
    cases hp : parseURL url with
    | none => simp [isAllowedDownloadHost, hp]
    | some p =>
      by_cases hpr : p.protocol = "https:"
      · simp only [isAllowedDownloadHost, hp, hpr, ne_eq, not_true_eq_false, if_false,
          allowedDownloadHostSuffixes, List.any_cons, List.any_nil, Bool.or_eq_true,
          Bool.or_false, beq_iff_eq, e1, e2, e3, Option.some.injEq]
        constructor
        · intro h
          exact ⟨p, rfl, hpr, by tauto⟩
        · rintro ⟨p', hpeq, _, hdisj⟩
          cases hpeq
          tauto
      · simp [isAllowedDownloadHost, hp, hpr]
  · intro a i u h
    unfold downloadAttachment at h
    split at h
    · simp at h
    · split at h
      · split at h
        · simp at h
        · split at h
          · simp at h
          · rename_i hguard
            simp only [DownloadAction.fetch.injEq] at h
            subst h
            simpa using hguard
      · simp at h

theorem c2_witness :
    downloadAttachment actAttachW 0 = DownloadAction.fetch "https://media.botframework.com/x" ∧
    isAllowedDownloadHost "https://media.botframework.com/x" = true :=
  ⟨by decide,
    c2_download_guard_characterisation.2.2.2.2.2 actAttachW 0
      "https://media.botframework.com/x" (by decide)⟩

theorem c3_retry_bound_and_exhaustion {α : Type} (env : JsEnv)
    (op : Nat → Except JsError α) (jitter : Nat → Int) (k : Nat) :
    (withRetry env op jitter k).calls ≤ k + 1 ∧
    ((∀ i, ∃ e, op i = Except.error e ∧ isRetryableStatus (errStatus e) = true) →
      (withRetry env op jitter k).calls = k + 1 ∧
      ∃ e, op k = Except.error e ∧
        (withRetry env op jitter k).result = Except.error e) := by
  constructor
  · exact withRetryAux_calls_le env op jitter k 0
  · intro hfail
    obtain ⟨hcalls, e, he, hres⟩ := withRetryAux_allfail env op jitter hfail k 0
    exact ⟨hcalls, e, by simpa using he, hres⟩

theorem c3_witness :
    (withRetry envTrivial opAlways429 jitterZero 2).calls = 2 + 1 ∧
    ∃ e, opAlways429 2 = Except.error e ∧
      (withRetry envTrivial opAlways429 jitterZero 2).result = Except.error e :=
  (c3_retry_bound_and_exhaustion envTrivial opAlways429 jitterZero 2).2
    (fun _ => ⟨err429, rfl, by decide⟩)

theorem c4_fatal_rethrown_immediately {α : Type} (env : JsEnv)
    (op : Nat → Except JsError α) (jitter : Nat → Int) (k : Nat) (e : JsError) :
    (op 0 = Except.error e → isRetryableStatus (errStatus e) = false →
      withRetry env op jitter k =
        { result := Except.error e, calls := 1, waits := [] }) ∧
    (∀ ra, errStatus { responseStatus := none, statusCode := none, retryAfter := ra } = 0) ∧
    isRetryableStatus 0 = false ∧ isRetryableStatus 400 = false ∧
    isRetryableStatus 401 = false ∧ isRetryableStatus 404 = false := by
  refine ⟨?_, fun ra => rfl, by decide, by decide, by decide, by decide⟩
  intro hop hfatal
  rw [withRetry, withRetryAux, hop]
  simp [hfatal]

theorem c4_witness :
    withRetry envTrivial opAlways400 jitterZero 3 =
      { result := Except.error err400, calls := 1, waits := [] } :=
  (c4_fatal_rethrown_immediately envTrivial opAlways400 jitterZero 3 err400).1
    rfl (by decide)

theorem c5_retry_after_hint (env : JsEnv) :
    (∀ s n, s ≠ "" → env.jsNumber s = some n → 0 ≤ n →
      parseRetryAfter env (some s) = n * 1000) ∧
    (∀ s d, s ≠ "" → env.jsNumber s = none → env.dateParse s = some d →
      parseRetryAfter env (some s) = max (d - env.now) 0) ∧
    (∀ s, s ≠ "" → env.jsNumber s = none → env.dateParse s = none →
      parseRetryAfter env (some s) = 0) ∧
    parseRetryAfter env none = 0 ∧
    (∀ {α : Type} (op : Nat → Except JsError α) (jitter : Nat → Int) (k j : Nat) (w : Int),
      (withRetry env op jitter k).waits.get? j = some w →
      ∃ e, op j = Except.error e ∧
        w = max (jitter j) (parseRetryAfter env e.retryAfter)) := by
  refine ⟨?_, ?_, ?_, rfl, ?_⟩
  · intro s n hs hn hnonneg
    simp [parseRetryAfter, hs, hn, hnonneg]
  · intro s d hs hn hd
    simp only [parseRetryAfter, hn, hd, if_neg hs]
    rw [max_def]
    split <;> split <;> omega
  · intro s hs hn hd
    simp [parseRetryAfter, hs, hn, hd]
  · intro α op jitter k j w h
    have := withRetryAux_waits env op jitter k 0 j w h
    simpa using this

theorem c5_witness :
    parseRetryAfter envTable (some "120") = 120 * 1000 ∧
    parseRetryAfter envTable (some "Thu, 01 Jan 1970 00:00:00 GMT") = max (100 - 1000) 0 ∧
    parseRetryAfter envTable (some "unparseable") = 0 ∧
    parseRetryAfter envTable none = 0 ∧
    ∃ e, opHint429 0 = Except.error e ∧
      (120000 : Int) = max (jitterZero 0) (parseRetryAfter envTable e.retryAfter) := by
  refine ⟨?_, ?_, ?_, ?_, ?_⟩
  · exact (c5_retry_after_hint envTable).1 "120" 120 (by decide) (by decide) (by decide)
  · exact (c5_retry_after_hint envTable).2.1 "Thu, 01 Jan 1970 00:00:00 GMT" 100
      (by decide) (by decide) (by decide)
  · exact (c5_retry_after_hint envTable).2.2.1 "unparseable" (by decide) (by decide) (by decide)
  · exact (c5_retry_after_hint envTable).2.2.2.1
  · exact (c5_retry_after_hint envTable).2.2.2.2 opHint429 jitterZero 1 0 120000 (by decide)

theorem c6_counterexample :
    (cfgEmptyGroupList.allowFrom.getD []).contains "user-1" = true ∧
    cfgEmptyGroupList.groupPolicy = some "allowlist" ∧
    cfgEmptyGroupList.groupAllowFrom = some [] ∧
    isAllowed cfgEmptyGroupList "user-1" "channel" = false := by decide

theorem c6_group_allowlist_fallback (config : MSTeamsConfig) (uid kind : String)
    (hkind : kind = "channel" ∨ kind = "groupChat")
    (hpol : config.groupPolicy = some "allowlist") :
    (config.groupAllowFrom = none →
      isAllowed config uid kind =
        ((config.allowFrom.getD []).contains "*" || (config.allowFrom.getD []).contains uid)) ∧
    (∀ l, config.groupAllowFrom = some l →
      isAllowed config uid kind = (l.contains "*" || l.contains uid)) := by
  have hgroup : (kind == "channel" || kind == "groupChat") = true := by
    rcases hkind with h | h <;> simp [h]
  constructor
  · intro hnone
    simp [isAllowed, hgroup, hpol, jsOr, jsOrArr, hnone]
  · intro l hsome
    simp [isAllowed, hgroup, hpol, jsOr, jsOrArr, hsome]

theorem c6_witness :
    isAllowed cfgGroupFallback "user-1" "channel" =
      ((cfgGroupFallback.allowFrom.getD []).contains "*" ||
       (cfgGroupFallback.allowFrom.getD []).contains "user-1") :=
  (c6_group_allowlist_fallback cfgGroupFallback "user-1" "channel"
    (Or.inl rfl) rfl).1 rfl

theorem c7_counterexample :
    (processActivity cfgDisabledGroup [] actChannelW {}).1 = ProcessOutcome.blockedByPolicy ∧
    mapHasKey (processActivity cfgDisabledGroup [] actChannelW {}).2.refs "conv-1" = true ∧
    (processActivity cfgDisabledGroup [] actChannelW {}).2.messagesProcessed = 0 ∧
    (processActivity cfgDisabledGroup [] actChannelW {}).2.activeConversations = [] ∧
    (processActivity cfgDisabledGroup [] actChannelW {}).2.tenants = [] := by decide

theorem c7_reference_before_policy_counters_after (config : MSTeamsConfig)
    (registered : List String) (a : Activity) (s : RuntimeState)
    (o : ProcessOutcome) (s' : RuntimeState)
    (h : processActivity config registered a s = (o, s')) :
    (∀ cid, a.conversation.bind (·.id) = some cid → mapHasKey s'.refs cid = true) ∧
    (o = ProcessOutcome.blockedByPolicy ∨ o = ProcessOutcome.suppressedNoMention →
      s' = { s with refs := storeConversationReference a s.refs }) ∧
    (∀ key msg, o = ProcessOutcome.injected key msg →
      s'.messagesProcessed = s.messagesProcessed + 1) ∧
    (∀ n args, o = ProcessOutcome.commandHandled n args →
      s'.messagesProcessed = s.messagesProcessed + 1) := by
  have hcounted : ∀ cid,
      (trackChannels a (trackState a cid
        { s with refs := storeConversationReference a s.refs })).messagesProcessed =
        s.messagesProcessed + 1 := by
    intro cid
    rw [(trackChannels_fields a _).2.1, (trackState_fields a cid _).2.1]
  have hrefs2 : ∀ cid,
      (trackChannels a (trackState a cid
        { s with refs := storeConversationReference a s.refs })).refs =
        storeConversationReference a s.refs := by
    intro cid
    rw [(trackChannels_fields a _).1, (trackState_fields a cid _).1]
  rw [processActivity] at h
  split at h
  · cases h
    exact ⟨fun cid hcid => storeConversationReference_hasKey a s.refs cid hcid,
      by simp, by simp, by simp⟩
  · split at h
    · cases h
      exact ⟨fun cid hcid => storeConversationReference_hasKey a s.refs cid hcid,
        by simp, by simp, by simp⟩
    · split at h
      · split at h
        · cases h
          exact ⟨fun cid hcid => storeConversationReference_hasKey a s.refs cid hcid,
            by simp, by simp, by simp⟩
        · split at h
          · cases h
            exact ⟨fun cid hcid => storeConversationReference_hasKey a s.refs cid hcid,
              fun _ => rfl, by simp, by simp⟩
          · split at h
            · cases h
              exact ⟨fun cid hcid => storeConversationReference_hasKey a s.refs cid hcid,
                fun _ => rfl, by simp, by simp⟩
            · split at h
              · cases h
                refine ⟨fun cid hcid => ?_, by simp, by simp, fun n args ho => hcounted _⟩
                rw [hrefs2]
                exact storeConversationReference_hasKey a s.refs cid hcid
              · cases h
                refine ⟨fun cid hcid => ?_, by simp, fun key msg ho => hcounted _, by simp⟩
                rw [hrefs2]
                exact storeConversationReference_hasKey a s.refs cid hcid
      · cases h
        exact ⟨fun cid hcid => storeConversationReference_hasKey a s.refs cid hcid,
          by simp, by simp, by simp⟩

theorem c7_witness :
    mapHasKey stateC7.refs "conv-1" = true ∧
    stateC7 = { ({} : RuntimeState) with
                  refs := storeConversationReference actChannelW ({} : RuntimeState).refs } :=
  ⟨(c7_reference_before_policy_counters_after cfgDisabledGroup [] actChannelW {}
      ProcessOutcome.blockedByPolicy stateC7 (by decide)).1 "conv-1" rfl,
    (c7_reference_before_policy_counters_after cfgDisabledGroup [] actChannelW {}
      ProcessOutcome.blockedByPolicy stateC7 (by decide)).2.1 (Or.inl rfl)⟩

theorem c8_counterexample :
    resolveCredentials {} {} = none ∧
    initCredentialCheck {} {} = InitOutcome.warnedMissingCredentials ∧
    initThrows (initCredentialCheck {} {}) = false := by decide

theorem c8_init_credential_handling (config : MSTeamsConfig) (env : CredEnv) :
    (resolveCredentials config env = none →
      initCredentialCheck config env = InitOutcome.warnedMissingCredentials ∧
      initThrows (initCredentialCheck config env) = false) ∧
    (∀ a p t, resolveCredentials config env = some (a, p, t) →
      (jsTrim a = "" → initCredentialCheck config env = InitOutcome.threwEmptyAppId) ∧
      (jsTrim a ≠ "" → jsTrim p = "" →
        initCredentialCheck config env = InitOutcome.threwEmptyAppPassword) ∧
      (jsTrim a ≠ "" → jsTrim p ≠ "" → jsTrim t = "" →
        initCredentialCheck config env = InitOutcome.threwEmptyTenantId)) ∧
    (initCredentialCheck config env = InitOutcome.adapterCreated ↔
      ∃ a p t, resolveCredentials config env = some (a, p, t) ∧
        jsTrim a ≠ "" ∧ jsTrim p ≠ "" ∧ jsTrim t ≠ "") := by
  refine ⟨?_, ?_, ?_⟩
  · intro hres
    simp [initCredentialCheck, hres, initThrows]
  · intro a p t hres
    refine ⟨?_, ?_, ?_⟩
    · intro ha
      simp [initCredentialCheck, hres, ha]
    · intro ha hp
      simp [initCredentialCheck, hres, ha, hp]
    · intro ha hp ht
      simp [initCredentialCheck, hres, ha, hp, ht]
  · cases hres : resolveCredentials config env with
    | none =>
      simp [initCredentialCheck, hres]
    | some triple =>
      obtain ⟨a, p, t⟩ := triple
      constructor
      · intro h
        by_cases ha : jsTrim a = ""
        · simp [initCredentialCheck, hres, ha] at h
        · by_cases hp : jsTrim p = ""
          · simp [initCredentialCheck, hres, ha, hp] at h
          · by_cases ht : jsTrim t = ""
            · simp [initCredentialCheck, hres, ha, hp, ht] at h
            · exact ⟨a, p, t, rfl, ha, hp, ht⟩
      · rintro ⟨a', p', t', heq, ha, hp, ht⟩
        obtain ⟨ha', hp', ht'⟩ : a = a' ∧ p = p' ∧ t = t' := by simpa using heq
        subst ha'
        subst hp'
        subst ht'
        simp [initCredentialCheck, hres, ha, hp, ht]

theorem c8_witness :
    initCredentialCheck cfgBlankAppId {} = InitOutcome.threwEmptyAppId :=
  ((c8_init_credential_handling cfgBlankAppId {}).2.1 " " "pw" "tn" (by decide)).1 (by decide)

end MSTeams
